import Mathlib

/-!
A verification development for the `gh-setup` CLI core: the weekly-milestone
schedule generator and its timezone conversion (`src/milestones.ts`), milestone
and label reconciliation (`src/milestones.ts`, `src/labels.ts`), and the
paginated gateway post-processing (`github.ts` / `ghApi`).

Modelling conventions:
* A JavaScript `Date` holding a calendar date at local midnight is represented
  by its proleptic-Gregorian day number (days since 1970-01-01, an `Int`).
  `addDays` in the source uses `setDate`, which is exact calendar-day
  arithmetic, so it is day-number addition here.
* An instant is represented by its POSIX seconds value (an `Int`).
* Strings built by template literals are rebuilt with `++` and `toString`.
-/

set_option maxRecDepth 100000

namespace GhSetup

/-- Civil (year, month, day) from a day number (days since 1970-01-01),
proleptic Gregorian — the calendar used by JS `Date`'s `getFullYear` /
`getMonth` / `getDate`. -/
def civilFromDays (z0 : Int) : Int × Nat × Nat :=
  let z := z0 + 719468
  let era := Int.fdiv z 146097
  let doe := z - era * 146097
  let yoe := Int.fdiv (doe - Int.fdiv doe 1460 + Int.fdiv doe 36524 - Int.fdiv doe 146096) 365
  let y := yoe + era * 400
  let doy := doe - (365 * yoe + Int.fdiv yoe 4 - Int.fdiv yoe 100)
  let mp := Int.fdiv (5 * doy + 2) 153
  let d := doy - Int.fdiv (153 * mp + 2) 5 + 1
  let m := if mp < 10 then mp + 3 else mp - 9
  (if m ≤ 2 then y + 1 else y, m.toNat, d.toNat)

/-- Day number (days since 1970-01-01) of a civil (year, month, day),
proleptic Gregorian — the inverse direction used to embed parsed
`"YYYY-MM-DD"` strings. -/
def daysFromCivil (y0 : Int) (m d : Nat) : Int :=
  let y := if m ≤ 2 then y0 - 1 else y0
  let era := Int.fdiv y 400
  let yoe := y - era * 400
  let mp : Nat := if 2 < m then m - 3 else m + 9
  let doy := (153 * (mp : Int) + 2) / 5 + (d : Int) - 1
  let doe := yoe * 365 + Int.fdiv yoe 4 - Int.fdiv yoe 100 + doy
  era * 146097 + doe - 719468

/-- `String(n).padStart(2, "0")` for the month/day components. -/
def pad2 (n : Nat) : String :=
  if n < 10 then "0" ++ toString n else toString n

/-- `formatDate` from `src/milestones.ts`: renders a date as `YYYY-MM-DD`
(year unpadded, month/day zero-padded to two digits). -/
def formatDate (z : Int) : String :=
  let c := civilFromDays z
  toString c.1 ++ "-" ++ pad2 c.2.1 ++ "-" ++ pad2 c.2.2

/-- `addDays` from `src/milestones.ts`: `setDate(getDate() + days)` is exact
calendar-day arithmetic on the day number. -/
def addDays (z : Int) (days : Int) : Int := z + days

/-- A timezone, abstracted as its UTC offset (seconds east of UTC) as a
function of the UTC instant it is queried at — the datum the
`toLocaleString` round-trip in `toUtcDueOn` extracts. -/
structure Tz where
  offset : Int → Int

/-- The `"UTC"` zone: offset 0 at every instant. -/
def utcTz : Tz := ⟨fun _ => 0⟩

/-- The `"Asia/Tokyo"` zone: fixed offset UTC+9 (32400 s), no DST. -/
def tokyoTz : Tz := ⟨fun _ => 32400⟩

/-- The instant (POSIX seconds) at `h:m:s` UTC on day `z`. -/
def instantAt (z : Int) (h m s : Nat) : Int :=
  z * 86400 + (h : Int) * 3600 + (m : Int) * 60 + (s : Int)

/-- `toUtcDueOn` from `src/milestones.ts`: take the instant `D`T23:59:59Z as a
UTC reference, measure the zone's offset at that reference (the
`toLocaleString` round-trip yields `tzRepr - utcRepr` = the zone's UTC offset
at `utcRef`), and subtract it. The argument is the day number of the
`YYYY-MM-DD` end-date string. -/
def toUtcDueOn (z : Int) (tz : Tz) : Int :=
  let utcRef := instantAt z 23 59 59
  let offsetMs := tz.offset utcRef
  utcRef - offsetMs

/-- `sundayWeekOfYear` from `src/milestones.ts`: 1 + the number of whole weeks
from the first Sunday of the date's year (`getDay()` is 0 on Sundays;
1970-01-01 was a Thursday, day-of-week 4). -/
def sundayWeekOfYear (z : Int) : Int :=
  let jan1 := daysFromCivil (civilFromDays z).1 1 1
  let firstSunday := addDays jan1 (Int.emod (7 - Int.emod (jan1 + 4) 7) 7)
  Int.fdiv (z - firstSunday) 7 + 1

/-- One generated milestone, as computed per iteration of the
create/update loop in `milestones()` (`src/milestones.ts`). -/
structure Descriptor where
  title : String
  description : String
  weekEnd : Int
  endDateStr : String
  dueOnUtc : Int
deriving DecidableEq

/-- Body of iteration `i` of the milestone generation loop in `milestones()`:
`weekStart = startDate + i*7`, `weekEnd = weekStart + 6`,
`title = "Week {n}: {endDateStr}"`, `description = "Period: {start} - {end}"`,
due instant via `toUtcDueOn`. -/
def descriptorOf (startDate : Int) (tz : Tz) (i : Nat) : Descriptor :=
  let weekStart := addDays startDate ((i : Int) * 7)
  let weekEnd := addDays weekStart 6
  let weekNum := sundayWeekOfYear weekStart
  let endDateStr := formatDate weekEnd
  { title := "Week " ++ toString weekNum ++ ": " ++ endDateStr
    description := "Period: " ++ formatDate weekStart ++ " - " ++ endDateStr
    weekEnd := weekEnd
    endDateStr := endDateStr
    dueOnUtc := toUtcDueOn weekEnd tz }

/-- The milestone schedule generation loop (`for i in 0..weeks-1`). -/
def generate (startDate : Int) (weeks : Nat) (tz : Tz) : List Descriptor :=
  (List.range weeks).map (descriptorOf startDate tz)

/-! ### Milestone reconciliation (`src/milestones.ts`, `github.ts`) -/
/-- The `Milestone` interface of `github.ts`: what `listMilestones` parses
from the remote. -/
structure RemoteMilestone where
  number : Nat
  title : String
  description : Option String
  due_on : Option String
  state : String
deriving DecidableEq

/-- `m.due_on.slice(0, 10)`: the date portion used as the matching key
(absent when `due_on` is null). -/
def dateKeyOf (m : RemoteMilestone) : Option String :=
  m.due_on.map (fun s => s.take 10)

/-- `Map.get` on an association list (JS `Map` lookup). -/
def getAssoc : List (String × Nat) → String → Option Nat
  | [], _ => none
  | (k', v') :: rest, k => if k' = k then some v' else getAssoc rest k

/-- `Map.set` on an association list: replace the binding if the key is
present, else append (JS `Map.set` semantics for lookup purposes). -/
def setAssoc : List (String × Nat) → String → Nat → List (String × Nat)
  | [], k, v => [(k, v)]
  | (k', v') :: rest, k, v =>
    if k' = k then (k, v) :: rest else (k', v') :: setAssoc rest k v

/-- The duplicate-due-date warning message emitted by `milestones()` via
`p.log.warn` (a template literal interpolating the date key, the later
milestone's number and title, and the earlier milestone's number). -/
def dupWarning (dateKey : String) (newNumber : Nat) (newTitle : String)
    (oldNumber : Nat) : String :=
  "Duplicate due_on date " ++ dateKey ++ ": milestone #" ++ toString newNumber ++
    " (\"" ++ newTitle ++ "\") overwrites #" ++ toString oldNumber

/-- One iteration of the `for (const m of existing)` indexing loop in
`milestones()`: skip milestones without `due_on`; warn if the date key is
already present; then `existingMap.set(dateKey, m.number)`. The state is
the association list plus the warnings emitted so far. -/
def indexStep (st : List (String × Nat) × List String) (m : RemoteMilestone) :
    List (String × Nat) × List String :=
  match dateKeyOf m with
  | none => st
  | some k =>
    match getAssoc st.1 k with
    | some old =>
      (setAssoc st.1 k m.number, st.2 ++ [dupWarning k m.number m.title old])
    | none => (setAssoc st.1 k m.number, st.2)

/-- The full indexing loop over the fetched milestones. -/
def buildIndex (remotes : List RemoteMilestone) :
    List (String × Nat) × List String :=
  remotes.foldl indexStep ([], [])

/-- The date-key → milestone-number map (`existingMap`). -/
def indexPairs (remotes : List RemoteMilestone) : List (String × Nat) :=
  (buildIndex remotes).1

/-- The duplicate warnings emitted while indexing. -/
def buildWarnings (remotes : List RemoteMilestone) : List String :=
  (buildIndex remotes).2

/-- The action decided for one generated milestone: the body of the apply
loop either calls `updateMilestone` or `createMilestone`. -/
inductive MAction where
  | create (title description : String) (dueOn : Int)
  | update (number : Nat) (title description : String)
deriving DecidableEq

/-- `const existingNumber = existingMap.get(endDateStr); if (existingNumber)`:
a present number chooses update — except number `0`, which is falsy in JS and
therefore falls into the create branch. -/
def classifyWeek (index : List (String × Nat)) (d : Descriptor) : MAction :=
  match getAssoc index d.endDateStr with
  | some n =>
    if n = 0 then .create d.title d.description d.dueOnUtc
    else .update n d.title d.description
  | none => .create d.title d.description d.dueOnUtc

/-- A JSON scalar as it appears in the request bodies this tool sends. -/
inductive JVal where
  | str (s : String)
  | int (n : Int)
deriving DecidableEq

/-- A request handed to `ghApi`: HTTP method, endpoint path, JSON body as an
ordered field list. -/
structure Req where
  method : String
  path : String
  body : List (String × JVal)
deriving DecidableEq

/-- `createMilestone` (`github.ts`): POST with `{title, description, due_on}`. -/
def createMilestoneReq (repo : String) (title description : String)
    (dueOn : Int) : Req :=
  { method := "POST"
    path := "/repos/" ++ repo ++ "/milestones"
    body := [("title", .str title), ("description", .str description),
             ("due_on", .int dueOn)] }

/-- `updateMilestone` (`github.ts`): PATCH with `{title, description}` only. -/
def updateMilestoneReq (repo : String) (number : Nat)
    (title description : String) : Req :=
  { method := "PATCH"
    path := "/repos/" ++ repo ++ "/milestones/" ++ toString number
    body := [("title", .str title), ("description", .str description)] }

/-- The gateway request issued for a classified milestone action. -/
def reqOfMAction (repo : String) : MAction → Req
  | .create t d due => createMilestoneReq repo t d due
  | .update n t d => updateMilestoneReq repo n t d

/-! ### Label reconciliation (`src/labels.ts`, `github.ts`) -/
/-- `LabelConfig` from `src/config.ts`: a desired label. -/
structure LabelConfig where
  name : String
  color : String
  description : Option String
deriving DecidableEq

/-- The `Label` interface of `github.ts`: a remote label as fetched. -/
structure RemoteLabel where
  name : String
  color : String
  description : Option String
deriving DecidableEq

/-- `color.replace(/^#/, "")`: strip one leading `#` if present. -/
def stripHash (c : String) : String :=
  match c.data with
  | '#' :: rest => String.mk rest
  | _ => c

/-- `name.toLowerCase()`: JS lowercasing, modelled character-wise (label
names here are ASCII, where `Char.toLower` agrees with JS). -/
def toLowerStr (s : String) : String :=
  String.mk (s.data.map Char.toLower)

/-- Lookup in the lowercased-name → remote-label map. -/
def getLabelAssoc : List (String × RemoteLabel) → String → Option RemoteLabel
  | [], _ => none
  | (k', v') :: rest, k => if k' = k then some v' else getLabelAssoc rest k

/-- Insert-or-replace in the lowercased-name → remote-label map (JS `Map`
construction semantics: a later duplicate key overwrites). -/
def setLabelAssoc : List (String × RemoteLabel) → String → RemoteLabel →
    List (String × RemoteLabel)
  | [], k, v => [(k, v)]
  | (k', v') :: rest, k, v =>
    if k' = k then (k, v) :: rest else (k', v') :: setLabelAssoc rest k v

/-- `new Map(existingLabels.map(l => [l.name.toLowerCase(), l]))`. -/
def buildLabelMap (existing : List RemoteLabel) : List (String × RemoteLabel) :=
  existing.foldl (fun acc l => setLabelAssoc acc (toLowerStr l.name) l) []

/-- Classification outcome of one desired label. -/
inductive LClass where
  | create
  | update
  | unchanged
deriving DecidableEq

/-- The per-desired-label classification in `labels()`: look up by lowercased
name; missing → create; otherwise compare `existing.color` against the
`#`-stripped desired color and `description ?? ""` on both sides; any
difference → update, else unchanged. -/
def classifyLabel (existingMap : List (String × RemoteLabel))
    (desired : LabelConfig) : LClass :=
  match getLabelAssoc existingMap (toLowerStr desired.name) with
  | none => .create
  | some existing =>
    let colorChanged := existing.color != stripHash desired.color
    let descChanged := existing.description.getD "" != desired.description.getD ""
    if colorChanged || descChanged then .update else .unchanged

/-- The diff computed by `labels()` before applying. -/
structure LabelPlan where
  toCreate : List LabelConfig
  toUpdate : List LabelConfig
  unchanged : Nat
deriving DecidableEq

/-- The `for (const desired of desiredLabels)` classification loop. -/
def labelPlan (desired : List LabelConfig) (existing : List RemoteLabel) :
    LabelPlan :=
  desired.foldl
    (fun plan d =>
      match classifyLabel (buildLabelMap existing) d with
      | .create => { plan with toCreate := plan.toCreate ++ [d] }
      | .update => { plan with toUpdate := plan.toUpdate ++ [d] }
      | .unchanged => { plan with unchanged := plan.unchanged + 1 })
    ⟨[], [], 0⟩

/-- `createLabel` (`github.ts`): POST with `{name, color, description}`,
color `#`-stripped by the caller in `labels()`. -/
def createLabelReq (repo : String) (l : LabelConfig) : Req :=
  { method := "POST"
    path := "/repos/" ++ repo ++ "/labels"
    body := [("name", .str l.name), ("color", .str (stripHash l.color)),
             ("description", .str (l.description.getD ""))] }

/-- `updateLabel` (`github.ts`): PATCH to the label's (URI-encoded) name with
`{color, description}` only. -/
def updateLabelReq (repo : String) (l : LabelConfig) : Req :=
  { method := "PATCH"
    path := "/repos/" ++ repo ++ "/labels/" ++ l.name
    body := [("color", .str (stripHash l.color)),
             ("description", .str (l.description.getD ""))] }

/-- `deleteLabel` (`github.ts`): DELETE to the label's name. Present in the
gateway, never called by the reconciler. -/
def deleteLabelReq (repo : String) (name : String) : Req :=
  { method := "DELETE"
    path := "/repos/" ++ repo ++ "/labels/" ++ name
    body := [] }

/-- The gateway requests issued by the label apply phase: the create loop
then the update loop. -/
def labelRequests (repo : String) (plan : LabelPlan) : List Req :=
  plan.toCreate.map (createLabelReq repo) ++
    plan.toUpdate.map (updateLabelReq repo)

/-! ### Gateway pagination post-processing (`ghApi`, `github.ts`) -/
/-- A parsed JSON value, as far as the gateway's pagination handling
inspects it. -/
inductive Json where
  | null
  | bool (b : Bool)
  | num (n : Int)
  | str (s : String)
  | arr (elems : List Json)

/-- JS `Array.prototype.flat()`: one level of flattening, non-array elements
kept as-is. -/
def jsFlat1 : List Json → List Json
  | [] => []
  | Json.arr ys :: rest => ys ++ jsFlat1 rest
  | x :: rest => x :: jsFlat1 rest

/-- The gateway's test `Array.isArray(parsed) && parsed.length > 0 &&
Array.isArray(parsed[0])`. -/
def isArrOfArr : Json → Bool
  | .arr (.arr _ :: _) => true
  | _ => false

/-- Pagination post-processing in `ghApi`: when the parse is a nonempty
array whose first element is an array, return the flattened array; otherwise
return the raw parse unmodified. -/
def flattenPages (parsed : Json) : Json :=
  match parsed with
  | .arr (Json.arr y :: xs) => .arr (jsFlat1 (Json.arr y :: xs))
  | _ => parsed

/-! ### Batch apply loops (`milestones()` and `labels()`) -/
/-- The per-run counters and failure list both apply loops accumulate. -/
structure Summary where
  created : Nat
  updated : Nat
  failed : Nat
  failures : List (String × String)
deriving DecidableEq

/-- The number of items in a batch whose gateway call fails (is caught). -/
def countFailures {α : Type} (call : α → Except String Unit) : List α → Nat
  | [] => 0
  | x :: rest =>
    (match call x with
     | .error _ => 1
     | .ok _ => 0) + countFailures call rest

/-- One iteration of an apply loop: on success increment the
updated/created counter; on a caught error increment `failed` and record
`{key, message}` — the loop itself always continues. -/
def applyStep {α : Type} (call : α → Except String Unit) (isUpd : α → Bool)
    (key : α → String) (s : Summary) (x : α) : Summary :=
  match call x with
  | .ok _ =>
    if isUpd x then { s with updated := s.updated + 1 }
    else { s with created := s.created + 1 }
  | .error e =>
    { s with failed := s.failed + 1, failures := s.failures ++ [(key x, e)] }

/-- A whole apply loop from zeroed counters. -/
def runApply {α : Type} (call : α → Except String Unit) (isUpd : α → Bool)
    (key : α → String) (items : List α) : Summary :=
  items.foldl (applyStep call isUpd key) ⟨0, 0, 0, []⟩

/-- Whether a milestone action takes the update branch. -/
def MAction.isUpd : MAction → Bool
  | .update _ _ _ => true
  | .create _ _ _ => false

/-- The failure key recorded for a milestone action (its title). -/
def MAction.itemTitle : MAction → String
  | .update _ t _ => t
  | .create t _ _ => t

/-- The milestone apply loop over the classified actions, with the gateway
abstracted as a function from request to outcome. -/
def applyMilestones (gw : Req → Except String Unit) (repo : String)
    (acts : List MAction) : Summary :=
  runApply (fun a => gw (reqOfMAction repo a)) MAction.isUpd
    MAction.itemTitle acts

/-- A label apply item: the create loop runs before the update loop. -/
inductive LAction where
  | create (l : LabelConfig)
  | update (l : LabelConfig)
deriving DecidableEq

/-- The gateway request issued for a label apply item. -/
def reqOfLAction (repo : String) : LAction → Req
  | .create l => createLabelReq repo l
  | .update l => updateLabelReq repo l

/-- Whether a label item is in the update loop. -/
def LAction.isUpd : LAction → Bool
  | .update _ => true
  | .create _ => false

/-- The failure key recorded for a label item (its name). -/
def LAction.itemName : LAction → String
  | .update l => l.name
  | .create l => l.name

/-- The label apply phase: the create loop over `toCreate` followed by the
update loop over `toUpdate`, sharing counters. -/
def applyLabels (gw : Req → Except String Unit) (repo : String)
    (plan : LabelPlan) : Summary :=
  runApply (fun a => gw (reqOfLAction repo a)) LAction.isUpd LAction.itemName
    (plan.toCreate.map LAction.create ++ plan.toUpdate.map LAction.update)

/-- A demo gateway failing exactly on milestone creation (POST). -/
def gwmDemo : Req → Except String Unit :=
  fun r => if r.method = "POST" then .error "boom" else .ok ()

/-- A demo gateway failing exactly on label update (PATCH). -/
def gwlDemo : Req → Except String Unit :=
  fun r => if r.method = "PATCH" then .error "boom" else .ok ()

/-- A demo classified milestone batch: one create, one update. -/
def actsDemo : List MAction :=
  [.create "Week 1: 2026-01-10" "Period" 0, .update 1 "Week 2: 2026-01-17" "Period"]

/-- A demo label plan: one create, one update. -/
def planDemo : LabelPlan :=
  ⟨[⟨"bug", "d73a4a", none⟩], [⟨"feature", "0075ca", some "New feature"⟩], 0⟩

theorem generate_length (startDate : Int) (weeks : Nat) (tz : Tz) :
    (generate startDate weeks tz).length = weeks := by
  simp [generate]

theorem toUtcDueOn_lt (tz : Tz)
    (hoff : ∀ t : Int, -50400 ≤ tz.offset t ∧ tz.offset t ≤ 50400)
    {A B : Int} (h : A + 7 ≤ B) : toUtcDueOn A tz < toUtcDueOn B tz := by
  simp only [toUtcDueOn]
  obtain ⟨ha1, ha2⟩ := hoff (instantAt A 23 59 59)
  obtain ⟨hb1, hb2⟩ := hoff (instantAt B 23 59 59)
  set a := tz.offset (instantAt A 23 59 59) with ha
  set b := tz.offset (instantAt B 23 59 59) with hb
  have hA : instantAt A 23 59 59 = A * 86400 + 86399 := by
    simp only [instantAt]; ring
  have hB : instantAt B 23 59 59 = B * 86400 + 86399 := by
    simp only [instantAt]; ring
  rw [hA, hB]
  have hmul : (A + 7) * 86400 ≤ B * 86400 :=
    mul_le_mul_of_nonneg_right h (by norm_num)
  linarith

/-- C1: for every valid `(startDate, weeks, timezone)` with `weeks` positive
(and the zone's UTC offsets within the real-world ±14 h band), the generation
loop produces exactly `weeks` descriptors, the `i`-th has
`weekEnd = startDate + 7*i + 6` days, and the due instants are strictly
increasing. -/
theorem generate_schedule_correct (startDate : Int) (weeks : Nat) (tz : Tz)
    (hw : 0 < weeks)
    (hoff : ∀ t : Int, -50400 ≤ tz.offset t ∧ tz.offset t ≤ 50400) :
    (generate startDate weeks tz).length = weeks ∧
    (∀ (i : Nat) (hi : i < (generate startDate weeks tz).length),
      ((generate startDate weeks tz)[i]).weekEnd = startDate + 7 * (i : Int) + 6) ∧
    (∀ (i j : Nat) (hi : i < (generate startDate weeks tz).length)
        (hj : j < (generate startDate weeks tz).length), i < j →
      ((generate startDate weeks tz)[i]).dueOnUtc <
        ((generate startDate weeks tz)[j]).dueOnUtc) := by
  refine ⟨generate_length startDate weeks tz, ?_, ?_⟩
  · intro i hi
    simp only [generate, List.getElem_map, List.getElem_range, descriptorOf, addDays]
    ring
  · intro i j hi hj hij
    simp only [generate, List.getElem_map, List.getElem_range, descriptorOf, addDays]
    apply toUtcDueOn_lt tz hoff
    have hij' : (i : Int) + 1 ≤ (j : Int) := by exact_mod_cast hij
    have hmul : ((i : Int) + 1) * 7 ≤ (j : Int) * 7 :=
      mul_le_mul_of_nonneg_right hij' (by norm_num)
    linarith

theorem generate_schedule_correct_witness :
    (0 < 2) ∧
    (∀ t : Int, -50400 ≤ utcTz.offset t ∧ utcTz.offset t ≤ 50400) ∧
    ((generate (daysFromCivil 2026 1 4) 2 utcTz).length = 2 ∧
     (∀ (i : Nat) (hi : i < (generate (daysFromCivil 2026 1 4) 2 utcTz).length),
       ((generate (daysFromCivil 2026 1 4) 2 utcTz)[i]).weekEnd =
         daysFromCivil 2026 1 4 + 7 * (i : Int) + 6) ∧
     (∀ (i j : Nat) (hi : i < (generate (daysFromCivil 2026 1 4) 2 utcTz).length)
         (hj : j < (generate (daysFromCivil 2026 1 4) 2 utcTz).length), i < j →
       ((generate (daysFromCivil 2026 1 4) 2 utcTz)[i]).dueOnUtc <
         ((generate (daysFromCivil 2026 1 4) 2 utcTz)[j]).dueOnUtc)) :=
  ⟨by decide, fun t => ⟨by norm_num [utcTz], by norm_num [utcTz]⟩,
    generate_schedule_correct (daysFromCivil 2026 1 4) 2 utcTz (by decide)
      (fun t => ⟨by norm_num [utcTz], by norm_num [utcTz]⟩)⟩

/-- C2: the computed due instant for end-date `D` is exactly `D`T23:59:59Z
under `"UTC"` and exactly `D`T14:59:59Z under `"Asia/Tokyo"` (fixed UTC+9). -/
theorem dueOn_instants_utc_tokyo (z : Int) :
    toUtcDueOn z utcTz = instantAt z 23 59 59 ∧
    toUtcDueOn z tokyoTz = instantAt z 14 59 59 := by
  constructor
  · simp [toUtcDueOn, utcTz]
  · simp only [toUtcDueOn, tokyoTz, instantAt]
    ring

theorem getAssoc_setAssoc_self (l : List (String × Nat)) (k : String) (v : Nat) :
    getAssoc (setAssoc l k v) k = some v := by
  induction l with
  | nil => simp [setAssoc, getAssoc]
  | cons p rest ih =>
    by_cases h : p.1 = k
    · simp [setAssoc, getAssoc, h]
    · simp [setAssoc, getAssoc, h, ih]

theorem getAssoc_setAssoc_ne (l : List (String × Nat)) {k k' : String}
    (v : Nat) (h : k ≠ k') : getAssoc (setAssoc l k' v) k = getAssoc l k := by
  induction l with
  | nil => simp [setAssoc, getAssoc, Ne.symm h]
  | cons p rest ih =>
    by_cases hp : p.1 = k'
    · simp [setAssoc, getAssoc, hp, Ne.symm h]
    · simp only [setAssoc, hp, if_false, getAssoc]
      by_cases hpk : p.1 = k
      · simp [hpk]
      · simp [hpk, ih]

theorem isSome_getAssoc_setAssoc (l : List (String × Nat)) (k k' : String)
    (v : Nat) (h : (getAssoc l k).isSome) :
    (getAssoc (setAssoc l k' v) k).isSome := by
  by_cases hkk : k = k'
  · subst hkk
    simp [getAssoc_setAssoc_self]
  · rw [getAssoc_setAssoc_ne l v hkk]
    exact h

theorem indexStep_none (st : List (String × Nat) × List String)
    (m : RemoteMilestone) (h : dateKeyOf m = none) : indexStep st m = st := by
  unfold indexStep
  rw [h]

theorem indexStep_dup (st : List (String × Nat) × List String)
    (m : RemoteMilestone) (k : String) (old : Nat) (h : dateKeyOf m = some k)
    (hg : getAssoc st.1 k = some old) :
    indexStep st m =
      (setAssoc st.1 k m.number,
       st.2 ++ [dupWarning k m.number m.title old]) := by
  unfold indexStep
  rw [h]
  simp only [hg]

theorem indexStep_new (st : List (String × Nat) × List String)
    (m : RemoteMilestone) (k : String) (h : dateKeyOf m = some k)
    (hg : getAssoc st.1 k = none) :
    indexStep st m = (setAssoc st.1 k m.number, st.2) := by
  unfold indexStep
  rw [h]
  simp only [hg]

theorem isSome_getAssoc_indexStep (st : List (String × Nat) × List String)
    (m : RemoteMilestone) (k : String) (h : (getAssoc st.1 k).isSome) :
    (getAssoc (indexStep st m).1 k).isSome := by
  cases hdk : dateKeyOf m with
  | none =>
    rw [indexStep_none st m hdk]
    exact h
  | some k0 =>
    cases hg : getAssoc st.1 k0 with
    | some old =>
      rw [indexStep_dup st m k0 old hdk hg]
      exact isSome_getAssoc_setAssoc st.1 k k0 m.number h
    | none =>
      rw [indexStep_new st m k0 hdk hg]
      exact isSome_getAssoc_setAssoc st.1 k k0 m.number h

theorem isSome_getAssoc_foldl (remotes : List RemoteMilestone)
    (st : List (String × Nat) × List String) (k : String)
    (h : (getAssoc st.1 k).isSome) :
    (getAssoc (remotes.foldl indexStep st).1 k).isSome := by
  induction remotes generalizing st with
  | nil => exact h
  | cons m rest ih =>
    exact ih (indexStep st m) (isSome_getAssoc_indexStep st m k h)

theorem isSome_getAssoc_foldl_of_mem (remotes : List RemoteMilestone)
    (st : List (String × Nat) × List String) (m : RemoteMilestone) (k : String)
    (hm : m ∈ remotes) (hk : dateKeyOf m = some k) :
    (getAssoc (remotes.foldl indexStep st).1 k).isSome := by
  induction remotes generalizing st with
  | nil => cases hm
  | cons m0 rest ih =>
    rcases List.mem_cons.mp hm with heq | hmem
    · subst heq
      have hstep : (getAssoc (indexStep st m).1 k).isSome := by
        cases hg : getAssoc st.1 k with
        | some old =>
          rw [indexStep_dup st m k old hk hg]
          simp [getAssoc_setAssoc_self]
        | none =>
          rw [indexStep_new st m k hk hg]
          simp [getAssoc_setAssoc_self]
      exact isSome_getAssoc_foldl rest (indexStep st m) k hstep
    · exact ih (indexStep st m0) hmem

theorem getAssoc_foldl_mem (remotes : List RemoteMilestone)
    (st : List (String × Nat) × List String) (k : String) (n : Nat)
    (h : getAssoc (remotes.foldl indexStep st).1 k = some n) :
    (∃ m ∈ remotes, dateKeyOf m = some k ∧ m.number = n) ∨
      getAssoc st.1 k = some n := by
  induction remotes generalizing st with
  | nil => exact Or.inr h
  | cons m0 rest ih =>
    rcases ih (indexStep st m0) h with ⟨m', hm', hk', hn'⟩ | hbase
    · exact Or.inl ⟨m', List.mem_cons_of_mem m0 hm', hk', hn'⟩
    · cases hdk : dateKeyOf m0 with
      | none =>
        rw [indexStep_none st m0 hdk] at hbase
        exact Or.inr hbase
      | some k0 =>
        by_cases hkk : k0 = k
        · subst hkk
          have hset : getAssoc (setAssoc st.1 k0 m0.number) k0 = some n := by
            cases hg : getAssoc st.1 k0 with
            | some old =>
              rw [indexStep_dup st m0 k0 old hdk hg] at hbase
              exact hbase
            | none =>
              rw [indexStep_new st m0 k0 hdk hg] at hbase
              exact hbase
          rw [getAssoc_setAssoc_self] at hset
          exact Or.inl ⟨m0, List.mem_cons_self m0 rest, hdk,
            (Option.some_inj.mp hset)⟩
        · have hbase' : getAssoc (setAssoc st.1 k0 m0.number) k = some n := by
            cases hg : getAssoc st.1 k0 with
            | some old =>
              rw [indexStep_dup st m0 k0 old hdk hg] at hbase
              exact hbase
            | none =>
              rw [indexStep_new st m0 k0 hdk hg] at hbase
              exact hbase
          rw [getAssoc_setAssoc_ne st.1 m0.number (Ne.symm hkk)] at hbase'
          exact Or.inr hbase'

/-- C4: a generated descriptor whose end-date string is the date portion of
some remote milestone's `due_on` is classified as an Update referencing the
number of a remote milestone with that same date key (matching is by date
only), and is never a Create. Remote numbers are required nonzero, as GitHub
milestone numbers are (a zero number would be falsy in JS). -/
theorem milestone_match_keyed_by_date (startDate : Int) (tz : Tz) (i : Nat)
    (remotes : List RemoteMilestone) (m : RemoteMilestone)
    (hmem : m ∈ remotes)
    (hkey : dateKeyOf m = some (descriptorOf startDate tz i).endDateStr)
    (hnz : ∀ m' ∈ remotes, m'.number ≠ 0) :
    (∃ m' ∈ remotes,
      dateKeyOf m' = some (descriptorOf startDate tz i).endDateStr ∧
      classifyWeek (indexPairs remotes) (descriptorOf startDate tz i) =
        .update m'.number (descriptorOf startDate tz i).title
          (descriptorOf startDate tz i).description) ∧
    (∀ t ds due,
      classifyWeek (indexPairs remotes) (descriptorOf startDate tz i) ≠
        .create t ds due) := by
  have hsome := isSome_getAssoc_foldl_of_mem remotes ([], []) m
    (descriptorOf startDate tz i).endDateStr hmem hkey
  obtain ⟨n, hn⟩ := Option.isSome_iff_exists.mp hsome
  rcases getAssoc_foldl_mem remotes ([], [])
      (descriptorOf startDate tz i).endDateStr n hn with
    ⟨m', hm', hk', hn'⟩ | hbase
  · have hn0 : n ≠ 0 := hn' ▸ hnz m' hm'
    have hcw : classifyWeek (indexPairs remotes) (descriptorOf startDate tz i) =
        .update n (descriptorOf startDate tz i).title
          (descriptorOf startDate tz i).description := by
      unfold classifyWeek indexPairs buildIndex
      rw [hn]
      simp [hn0]
    refine ⟨⟨m', hm', hk', ?_⟩, ?_⟩
    · rw [hcw, hn']
    · intro t ds due hcontra
      rw [hcw] at hcontra
      exact MAction.noConfusion hcontra
  · simp [getAssoc] at hbase

theorem milestone_match_keyed_by_date_witness :
    ((⟨7, "Sprint", none, some "2026-01-10T23:59:59Z", "open"⟩ :
        RemoteMilestone) ∈
      [(⟨7, "Sprint", none, some "2026-01-10T23:59:59Z", "open"⟩ :
        RemoteMilestone)]) ∧
    (dateKeyOf ⟨7, "Sprint", none, some "2026-01-10T23:59:59Z", "open"⟩ =
      some (descriptorOf (daysFromCivil 2026 1 4) utcTz 0).endDateStr) ∧
    (∀ m' ∈ [(⟨7, "Sprint", none, some "2026-01-10T23:59:59Z", "open"⟩ :
        RemoteMilestone)], m'.number ≠ 0) ∧
    ((∃ m' ∈ [(⟨7, "Sprint", none, some "2026-01-10T23:59:59Z", "open"⟩ :
        RemoteMilestone)],
      dateKeyOf m' =
        some (descriptorOf (daysFromCivil 2026 1 4) utcTz 0).endDateStr ∧
      classifyWeek
          (indexPairs [⟨7, "Sprint", none, some "2026-01-10T23:59:59Z", "open"⟩])
          (descriptorOf (daysFromCivil 2026 1 4) utcTz 0) =
        .update m'.number (descriptorOf (daysFromCivil 2026 1 4) utcTz 0).title
          (descriptorOf (daysFromCivil 2026 1 4) utcTz 0).description) ∧
    (∀ t ds due,
      classifyWeek
          (indexPairs [⟨7, "Sprint", none, some "2026-01-10T23:59:59Z", "open"⟩])
          (descriptorOf (daysFromCivil 2026 1 4) utcTz 0) ≠
        .create t ds due)) :=
  ⟨List.mem_singleton.mpr rfl, by decide, by decide,
    milestone_match_keyed_by_date (daysFromCivil 2026 1 4) utcTz 0 _ _
      (List.mem_singleton.mpr rfl) (by decide) (by decide)⟩

/-- C9 (amended): appending a milestone whose date key is already in the
index makes the later milestone's number win, and appends exactly one warning
naming the date key, the later milestone's number and title, and the earlier
milestone's number — but not the earlier milestone's title. -/
theorem index_duplicate_later_wins (remotes : List RemoteMilestone)
    (m : RemoteMilestone) (k : String) (old : Nat)
    (hk : dateKeyOf m = some k)
    (hold : getAssoc (indexPairs remotes) k = some old) :
    getAssoc (indexPairs (remotes ++ [m])) k = some m.number ∧
    buildWarnings (remotes ++ [m]) =
      buildWarnings remotes ++ [dupWarning k m.number m.title old] := by
  have hfold : buildIndex (remotes ++ [m]) = indexStep (buildIndex remotes) m := by
    unfold buildIndex
    rw [List.foldl_append]
    rfl
  have hstep := indexStep_dup (buildIndex remotes) m k old hk hold
  constructor
  · unfold indexPairs
    rw [hfold, hstep]
    exact getAssoc_setAssoc_self _ _ _
  · unfold buildWarnings
    rw [hfold, hstep]

theorem index_duplicate_later_wins_witness :
    (dateKeyOf ⟨2, "Beta", none, some "2026-01-10T14:59:59Z", "open"⟩ =
      some "2026-01-10") ∧
    (getAssoc
        (indexPairs [⟨1, "Alpha", none, some "2026-01-10T14:59:59Z", "open"⟩])
        "2026-01-10" = some 1) ∧
    (getAssoc
        (indexPairs
          ([⟨1, "Alpha", none, some "2026-01-10T14:59:59Z", "open"⟩] ++
            [⟨2, "Beta", none, some "2026-01-10T14:59:59Z", "open"⟩]))
        "2026-01-10" = some 2 ∧
    buildWarnings
        ([⟨1, "Alpha", none, some "2026-01-10T14:59:59Z", "open"⟩] ++
          [⟨2, "Beta", none, some "2026-01-10T14:59:59Z", "open"⟩]) =
      buildWarnings [⟨1, "Alpha", none, some "2026-01-10T14:59:59Z", "open"⟩] ++
        [dupWarning "2026-01-10" 2 "Beta" 1]) :=
  ⟨by decide, by decide,
    index_duplicate_later_wins
      [⟨1, "Alpha", none, some "2026-01-10T14:59:59Z", "open"⟩]
      ⟨2, "Beta", none, some "2026-01-10T14:59:59Z", "open"⟩
      "2026-01-10" 1 (by decide) (by decide)⟩

/-- C9 counterexample: with remote milestones #1 "Alpha" and #2 "Beta"
sharing due date 2026-01-10, exactly one warning is emitted and it does not
contain the earlier milestone's title "Alpha", refuting that the warning
names both colliding milestones' titles. -/
theorem index_duplicate_warning_counterexample :
    buildWarnings
        [⟨1, "Alpha", none, some "2026-01-10T14:59:59Z", "open"⟩,
         ⟨2, "Beta", none, some "2026-01-10T14:59:59Z", "open"⟩] =
      [dupWarning "2026-01-10" 2 "Beta" 1] ∧
    ∀ w ∈ buildWarnings
        [⟨1, "Alpha", none, some "2026-01-10T14:59:59Z", "open"⟩,
         ⟨2, "Beta", none, some "2026-01-10T14:59:59Z", "open"⟩],
      ¬ ("Alpha".toList <:+: w.toList) := by
  constructor
  · decide
  · decide

/-- C3 counterexample: desired `{name:"Bug", color:"#D73A4A"}` against remote
`{name:"bug", color:"d73a4a"}` with equal (empty-normalized) descriptions
classifies as Update, not Unchanged — the comparison strips `#` but does not
lowercase the hex digits. -/
theorem label_color_case_counterexample :
    classifyLabel (buildLabelMap [⟨"bug", "d73a4a", none⟩])
        ⟨"Bug", "#D73A4A", none⟩ = .update ∧
    classifyLabel (buildLabelMap [⟨"bug", "d73a4a", none⟩])
        ⟨"Bug", "#D73A4A", none⟩ ≠ .unchanged := by
  constructor <;> decide

/-- C3 (amended): label lookup is case-insensitive on name and a leading `#`
is stripped from the desired color before comparing, but hex digits are
compared case-sensitively: any desired label agreeing with the remote on
lowercased name, `#`-stripped color (verbatim) and empty-normalized
description is Unchanged, while `{name:"Bug", color:"#D73A4A"}` against
remote `{name:"bug", color:"d73a4a"}` is Update. -/
theorem label_classify_normalization :
    (∀ (d : LabelConfig) (r : RemoteLabel),
      toLowerStr d.name = toLowerStr r.name →
      r.color = stripHash d.color →
      r.description.getD "" = d.description.getD "" →
      classifyLabel (buildLabelMap [r]) d = .unchanged) ∧
    classifyLabel (buildLabelMap [⟨"bug", "d73a4a", none⟩])
        ⟨"Bug", "#d73a4a", none⟩ = .unchanged ∧
    classifyLabel (buildLabelMap [⟨"bug", "d73a4a", none⟩])
        ⟨"Bug", "#D73A4A", none⟩ = .update := by
  refine ⟨?_, by decide, by decide⟩
  intro d r hname hcolor hdesc
  unfold classifyLabel buildLabelMap
  simp [setLabelAssoc, getLabelAssoc, hname, hcolor, hdesc]

theorem label_classify_normalization_witness :
    (toLowerStr "feature" = toLowerStr "Feature") ∧
    (("0075ca" : String) = stripHash "#0075ca") ∧
    ((some "New feature" : Option String).getD "" =
      (some "New feature" : Option String).getD "") ∧
    classifyLabel (buildLabelMap [⟨"Feature", "0075ca", some "New feature"⟩])
        ⟨"feature", "#0075ca", some "New feature"⟩ = .unchanged :=
  ⟨by decide, by decide, rfl,
    label_classify_normalization.1 ⟨"feature", "#0075ca", some "New feature"⟩
      ⟨"Feature", "0075ca", some "New feature"⟩ (by decide) (by decide) rfl⟩

/-- C8: the label apply phase issues only POST (create) and PATCH (update)
requests; no issued request is a delete call, for any desired configuration
and remote label set. -/
theorem labels_never_deleted (repo : String) (desired : List LabelConfig)
    (existing : List RemoteLabel) (req : Req)
    (hreq : req ∈ labelRequests repo (labelPlan desired existing)) :
    (req.method = "POST" ∨ req.method = "PATCH") ∧
    ∀ name, req ≠ deleteLabelReq repo name := by
  rcases List.mem_append.mp hreq with h | h
  · obtain ⟨l, _, rfl⟩ := List.mem_map.mp h
    refine ⟨Or.inl rfl, fun name hcontra => ?_⟩
    simp [createLabelReq, deleteLabelReq] at hcontra
  · obtain ⟨l, _, rfl⟩ := List.mem_map.mp h
    refine ⟨Or.inr rfl, fun name hcontra => ?_⟩
    simp [updateLabelReq, deleteLabelReq] at hcontra

theorem labels_never_deleted_witness :
    (createLabelReq "o/r" ⟨"bug", "d73a4a", some "Something isn't working"⟩ ∈
      labelRequests "o/r"
        (labelPlan [⟨"bug", "d73a4a", some "Something isn't working"⟩] [])) ∧
    ((createLabelReq "o/r"
        ⟨"bug", "d73a4a", some "Something isn't working"⟩).method = "POST" ∨
     (createLabelReq "o/r"
        ⟨"bug", "d73a4a", some "Something isn't working"⟩).method = "PATCH") ∧
    ∀ name, createLabelReq "o/r" ⟨"bug", "d73a4a", some "Something isn't working"⟩ ≠
      deleteLabelReq "o/r" name :=
  ⟨by decide,
    (labels_never_deleted "o/r" [⟨"bug", "d73a4a", some "Something isn't working"⟩]
      [] _ (by decide)).1,
    (labels_never_deleted "o/r" [⟨"bug", "d73a4a", some "Something isn't working"⟩]
      [] _ (by decide)).2⟩

/-- C10: the request issued for a label classified Update carries only the
color and description fields — never a name — so an update can never rename
the remote label it targets. -/
theorem label_update_never_renames (repo : String) (desired : List LabelConfig)
    (existing : List RemoteLabel) (l : LabelConfig)
    (hl : l ∈ (labelPlan desired existing).toUpdate) :
    (updateLabelReq repo l).body.map Prod.fst = ["color", "description"] ∧
    "name" ∉ (updateLabelReq repo l).body.map Prod.fst := by
  refine ⟨rfl, ?_⟩
  simp [updateLabelReq]

theorem label_update_never_renames_witness :
    ((⟨"Bug", "ffffff", none⟩ : LabelConfig) ∈
      (labelPlan [⟨"Bug", "ffffff", none⟩] [⟨"bug", "d73a4a", none⟩]).toUpdate) ∧
    (updateLabelReq "o/r" ⟨"Bug", "ffffff", none⟩).body.map Prod.fst =
      ["color", "description"] ∧
    "name" ∉ (updateLabelReq "o/r" ⟨"Bug", "ffffff", none⟩).body.map Prod.fst :=
  ⟨by decide,
    (label_update_never_renames "o/r" [⟨"Bug", "ffffff", none⟩]
      [⟨"bug", "d73a4a", none⟩] _ (by decide)).1,
    (label_update_never_renames "o/r" [⟨"Bug", "ffffff", none⟩]
      [⟨"bug", "d73a4a", none⟩] _ (by decide)).2⟩

/-- C5: a milestone classified Update is applied with a request whose body
has exactly the title and description fields — never a due date — while a
Create's body does carry `due_on`. -/
theorem milestone_update_preserves_due_date (repo : String) (act : MAction) :
    (∀ n t ds, act = .update n t ds →
      reqOfMAction repo act = updateMilestoneReq repo n t ds ∧
      (reqOfMAction repo act).body.map Prod.fst = ["title", "description"] ∧
      "due_on" ∉ (reqOfMAction repo act).body.map Prod.fst) ∧
    (∀ t ds due, act = .create t ds due →
      "due_on" ∈ (reqOfMAction repo act).body.map Prod.fst) := by
  constructor
  · rintro n t ds rfl
    refine ⟨rfl, rfl, ?_⟩
    simp [reqOfMAction, updateMilestoneReq]
  · rintro t ds due rfl
    simp [reqOfMAction, createMilestoneReq]

theorem milestone_update_preserves_due_date_witness :
    ((MAction.update 3 "Week 1: 2026-01-10" "Period" : MAction) =
      .update 3 "Week 1: 2026-01-10" "Period") ∧
    (reqOfMAction "o/r" (.update 3 "Week 1: 2026-01-10" "Period") =
      updateMilestoneReq "o/r" 3 "Week 1: 2026-01-10" "Period" ∧
    (reqOfMAction "o/r"
        (.update 3 "Week 1: 2026-01-10" "Period")).body.map Prod.fst =
      ["title", "description"] ∧
    "due_on" ∉ (reqOfMAction "o/r"
        (.update 3 "Week 1: 2026-01-10" "Period")).body.map Prod.fst) ∧
    ((MAction.create "t" "d" 0 : MAction) = .create "t" "d" 0) ∧
    "due_on" ∈ (reqOfMAction "o/r" (.create "t" "d" 0)).body.map Prod.fst :=
  ⟨rfl,
    (milestone_update_preserves_due_date "o/r"
      (.update 3 "Week 1: 2026-01-10" "Period")).1 3 "Week 1: 2026-01-10"
      "Period" rfl,
    rfl,
    (milestone_update_preserves_due_date "o/r" (.create "t" "d" 0)).2
      "t" "d" 0 rfl⟩

theorem jsFlat1_map_arr (ls : List (List Json)) :
    jsFlat1 (ls.map Json.arr) = ls.flatten := by
  induction ls with
  | nil => rfl
  | cons l rest ih => simp [jsFlat1, ih]

/-- C7: a parse that is an array of arrays is replaced by the concatenation
of the inner arrays; a parse that is not an array of arrays (the empty array
in particular) is returned unmodified. -/
theorem paginate_flatten_correct :
    (∀ ls : List (List Json), ls ≠ [] →
      flattenPages (.arr (ls.map Json.arr)) = .arr ls.flatten) ∧
    (∀ j : Json, isArrOfArr j = false → flattenPages j = j) := by
  constructor
  · intro ls hne
    match ls with
    | [] => exact absurd rfl hne
    | l :: rest => simp [flattenPages, jsFlat1, jsFlat1_map_arr]
  · intro j hj
    match j with
    | .null | .bool _ | .num _ | .str _ => rfl
    | .arr [] => rfl
    | .arr (x :: xs) =>
      match x with
      | .arr _ => simp [isArrOfArr] at hj
      | .null | .bool _ | .num _ | .str _ => rfl

theorem paginate_flatten_correct_witness :
    (([[Json.num 1, Json.num 2], [Json.num 3]] : List (List Json)) ≠ []) ∧
    flattenPages (.arr (([[Json.num 1, Json.num 2], [Json.num 3]] :
        List (List Json)).map Json.arr)) =
      .arr ([[Json.num 1, Json.num 2], [Json.num 3]] :
        List (List Json)).flatten ∧
    (isArrOfArr (Json.arr []) = false) ∧
    flattenPages (Json.arr []) = Json.arr [] :=
  ⟨List.cons_ne_nil _ _,
    paginate_flatten_correct.1 [[Json.num 1, Json.num 2], [Json.num 3]]
      (List.cons_ne_nil _ _),
    rfl,
    paginate_flatten_correct.2 (Json.arr []) rfl⟩

theorem applyStep_ok {α : Type} (call : α → Except String Unit)
    (isUpd : α → Bool) (key : α → String) (s : Summary) (x : α) (u : Unit)
    (hc : call x = .ok u) :
    applyStep call isUpd key s x =
      if isUpd x then { s with updated := s.updated + 1 }
      else { s with created := s.created + 1 } := by
  unfold applyStep
  rw [hc]

theorem applyStep_err {α : Type} (call : α → Except String Unit)
    (isUpd : α → Bool) (key : α → String) (s : Summary) (x : α) (e : String)
    (hc : call x = .error e) :
    applyStep call isUpd key s x =
      { s with failed := s.failed + 1,
               failures := s.failures ++ [(key x, e)] } := by
  unfold applyStep
  rw [hc]

theorem runApply_counts {α : Type} (call : α → Except String Unit)
    (isUpd : α → Bool) (key : α → String) (items : List α) (s : Summary) :
    (items.foldl (applyStep call isUpd key) s).failed =
        s.failed + countFailures call items ∧
    (items.foldl (applyStep call isUpd key) s).created +
        (items.foldl (applyStep call isUpd key) s).updated +
        (items.foldl (applyStep call isUpd key) s).failed =
      s.created + s.updated + s.failed + items.length ∧
    (items.foldl (applyStep call isUpd key) s).failures.length =
      s.failures.length + countFailures call items := by
  induction items generalizing s with
  | nil => simp [countFailures]
  | cons x rest ih =>
    simp only [List.foldl_cons, List.length_cons, countFailures]
    cases hc : call x with
    | ok u =>
      rw [applyStep_ok call isUpd key s x u hc]
      simp only [hc]
      by_cases hu : isUpd x
      · rw [if_pos hu]
        obtain ⟨ih1, ih2, ih3⟩ := ih { s with updated := s.updated + 1 }
        dsimp only at ih1 ih2 ih3
        refine ⟨?_, ?_, ?_⟩ <;> omega
      · rw [if_neg hu]
        obtain ⟨ih1, ih2, ih3⟩ := ih { s with created := s.created + 1 }
        dsimp only at ih1 ih2 ih3
        refine ⟨?_, ?_, ?_⟩ <;> omega
    | error e =>
      rw [applyStep_err call isUpd key s x e hc]
      simp only [hc]
      obtain ⟨ih1, ih2, ih3⟩ :=
        ih { s with failed := s.failed + 1,
                    failures := s.failures ++ [(key x, e)] }
      dsimp only at ih1 ih2 ih3
      simp only [List.length_append, List.length_cons, List.length_nil] at ih3
      refine ⟨?_, ?_, ?_⟩ <;> omega

/-- C6: when exactly one item's gateway call fails, the milestone apply loop
and the label apply loop each still process every item — the counters sum to
the number of items — with exactly one recorded failure and a failed count
of 1. -/
theorem batch_apply_single_failure
    (gwm : Req → Except String Unit) (repoM : String) (acts : List MAction)
    (hm : countFailures (fun a => gwm (reqOfMAction repoM a)) acts = 1)
    (gwl : Req → Except String Unit) (repoL : String) (plan : LabelPlan)
    (hl : countFailures (fun a => gwl (reqOfLAction repoL a))
        (plan.toCreate.map LAction.create ++
          plan.toUpdate.map LAction.update) = 1) :
    ((applyMilestones gwm repoM acts).failed = 1 ∧
     (applyMilestones gwm repoM acts).failures.length = 1 ∧
     (applyMilestones gwm repoM acts).created +
       (applyMilestones gwm repoM acts).updated +
       (applyMilestones gwm repoM acts).failed = acts.length) ∧
    ((applyLabels gwl repoL plan).failed = 1 ∧
     (applyLabels gwl repoL plan).failures.length = 1 ∧
     (applyLabels gwl repoL plan).created +
       (applyLabels gwl repoL plan).updated +
       (applyLabels gwl repoL plan).failed =
       plan.toCreate.length + plan.toUpdate.length) := by
  have h1 := runApply_counts (fun a => gwm (reqOfMAction repoM a))
    MAction.isUpd MAction.itemTitle acts ⟨0, 0, 0, []⟩
  have h2 := runApply_counts (fun a => gwl (reqOfLAction repoL a))
    LAction.isUpd LAction.itemName
    (plan.toCreate.map LAction.create ++ plan.toUpdate.map LAction.update)
    ⟨0, 0, 0, []⟩
  obtain ⟨h1f, h1t, h1l⟩ := h1
  obtain ⟨h2f, h2t, h2l⟩ := h2
  constructor
  · refine ⟨?_, ?_, ?_⟩
    · simpa [applyMilestones, runApply, hm] using h1f
    · simpa [applyMilestones, runApply, hm] using h1l
    · simpa [applyMilestones, runApply] using h1t
  · refine ⟨?_, ?_, ?_⟩
    · simpa [applyLabels, runApply, hl] using h2f
    · simpa [applyLabels, runApply, hl] using h2l
    · simpa [applyLabels, runApply] using h2t

theorem batch_apply_single_failure_witness :
    (countFailures (fun a => gwmDemo (reqOfMAction "o/r" a)) actsDemo = 1) ∧
    (countFailures (fun a => gwlDemo (reqOfLAction "o/r" a))
      (planDemo.toCreate.map LAction.create ++
        planDemo.toUpdate.map LAction.update) = 1) ∧
    (((applyMilestones gwmDemo "o/r" actsDemo).failed = 1 ∧
      (applyMilestones gwmDemo "o/r" actsDemo).failures.length = 1 ∧
      (applyMilestones gwmDemo "o/r" actsDemo).created +
        (applyMilestones gwmDemo "o/r" actsDemo).updated +
        (applyMilestones gwmDemo "o/r" actsDemo).failed = actsDemo.length) ∧
     ((applyLabels gwlDemo "o/r" planDemo).failed = 1 ∧
      (applyLabels gwlDemo "o/r" planDemo).failures.length = 1 ∧
      (applyLabels gwlDemo "o/r" planDemo).created +
        (applyLabels gwlDemo "o/r" planDemo).updated +
        (applyLabels gwlDemo "o/r" planDemo).failed =
        planDemo.toCreate.length + planDemo.toUpdate.length)) :=
  ⟨by decide, by decide,
    batch_apply_single_failure gwmDemo "o/r" actsDemo (by decide)
      gwlDemo "o/r" planDemo (by decide)⟩

end GhSetup
